import Mathlib

/-!
Shallow embedding of `MSOffice2016URLandUpdateInfoProvider.py` (the
MSOffice2016 update-metadata provider): the product table, the packed
OS-version decoder `valueToOSVersionString`, the title version extractor
`getVersion`, the trigger sanity check `sanityCheckExpectedTriggers`, the
installs-item builder `getInstallsItems`, and the orchestrating
`getInstallerinfo`, together with theorems settling the specification
claims about them.

Python values relevant to the decoder are modelled by `PyVal`; Python
run-time failures (raised `ProcessorError`s as well as uncaught `NameError`
/ `TypeError` / `KeyError` / `IndexError`) by `PyErr`.  Strings are Lean
`String`s (lists of characters), machine integers are `Int`/`Nat`.
-/

/-- A Python value as it reaches `valueToOSVersionString`: an `int` or a `str`. -/
inductive PyVal where
  | int (n : Int)
  | str (s : String)
deriving DecidableEq, Repr

/-- A Python run-time failure: a raised `ProcessorError`, or an uncaught
exception escaping the processor (`NameError` for an unbound local,
`TypeError`, `KeyError`, `IndexError`). -/
inductive PyErr where
  | processorError (msg : String)
  | nameError (var : String)
  | typeError (msg : String)
  | keyError (key : String)
  | indexError
deriving DecidableEq, Repr

deriving instance DecidableEq for Except

/-- `'0' ≤ c ≤ '9'` (code points 48-57): the characters `int(s)` (base 10)
accepts as digits. -/
def isDig (c : Char) : Bool := 48 ≤ c.toNat && c.toNat ≤ 57

/-- The numeric value of a hexadecimal digit character, if it is one
(`0`-`9`, `a`-`f`, `A`-`F`, by code point). -/
def hexVal? (c : Char) : Option Nat :=
  let n := c.toNat
  if 48 ≤ n ∧ n ≤ 57 then some (n - 48)
  else if 97 ≤ n ∧ n ≤ 102 then some (n - 97 + 10)
  else if 65 ≤ n ∧ n ≤ 70 then some (n - 65 + 10)
  else none

/-- The value of `c` as a digit in the given base (Python accepts a letter
digit only when its value is below the base). -/
def digitVal? (base : Nat) (c : Char) : Option Nat :=
  match hexVal? c with
  | none => none
  | some v => if v < base then some v else none

/-- Accumulating loop of `pyIntParse`. -/
def pyIntFold (base : Nat) : List Char → Nat → Option Nat
  | [], acc => some acc
  | c :: cs, acc =>
    match digitVal? base c with
    | none => none
    | some d => pyIntFold base cs (acc * base + d)

/-- Python `int(s, base)` on the character list `s`: `none` models a raised
`ValueError` (empty string or a character that is not a digit of the base).
Python also tolerates a sign and surrounding whitespace; no digit string the
decoder extracts from an `int`'s hex digits contains those, so they are not
modelled. -/
def pyIntParse (base : Nat) (cs : List Char) : Option Nat :=
  match cs with
  | [] => none
  | _ => pyIntFold base cs 0

/-- Python `hex(n)` as a character list: `0x` (after a sign for negative
input) followed by the lowercase base-16 digits. -/
def pyHexChars (n : Int) : List Char :=
  if n < 0 then '-' :: '0' :: 'x' :: Nat.toDigits 16 (-n).toNat
  else '0' :: 'x' :: Nat.toDigits 16 n.toNat

/-- Python `"%s" % value` for the two value shapes the decoder formats. -/
def pyStr : PyVal → String
  | .int n => if n < 0 then "-" ++ Nat.repr (-n).toNat else Nat.repr n.toNat
  | .str s => s

/-- The local `version_str` of `valueToOSVersionString` (lines 118-122): set
to `hex(value)[2:]` for an `int`, to `value[2:]` for a string starting with
`0x`, and left unassigned (`none`, a later `NameError`) otherwise. -/
def versionStr? : PyVal → Option (List Char)
  | .int n => some ((pyHexChars n).drop 2)
  | .str s => if s.data.take 2 = ['0', 'x'] then some (s.data.drop 2) else none

/-- Python `"%s.%s.%s" % (major, minor, patch)` on natural numbers. -/
def formatVersion (major minor patch : Nat) : String :=
  Nat.repr major ++ "." ++ Nat.repr minor ++ "." ++ Nat.repr patch

/-- The `ProcessorError` message of `valueToOSVersionString` (line 138). -/
def versionErrMsg (value : PyVal) : String :=
  "Unexpected value in version: " ++ pyStr value

/-- The `try` block of `valueToOSVersionString` (lines 125-139) on the digit
string `s`: `major`/`minor`/`patch` start at `0` and are reassigned by the
sequential length-guarded parses; the first `ValueError` aborts with the
`ProcessorError` of line 138. -/
def decodeVersionChars (value : PyVal) (s : List Char) : Except PyErr String :=
  match (if s.length = 1 then pyIntParse 10 (s.take 1)
         else if 1 < s.length then pyIntParse 10 (s.take 2)
         else some 0) with
  | none => .error (.processorError (versionErrMsg value))
  | some major =>
    match (if 2 < s.length then pyIntParse 16 ((s.drop 2).take 1) else some 0) with
    | none => .error (.processorError (versionErrMsg value))
    | some minor =>
      match (if 3 < s.length then pyIntParse 16 ((s.drop 3).take 1) else some 0) with
      | none => .error (.processorError (versionErrMsg value))
      | some patch => .ok (formatVersion major minor patch)

/-- `valueToOSVersionString` (lines 116-139): converts a packed value to an
OS X version string, or fails — with the line-138 `ProcessorError` on an
unparsable digit, and with an uncaught `NameError` when `version_str` was
never assigned (a non-`int` value that is not a `0x`-prefixed string). -/
def valueToOSVersionString (value : PyVal) : Except PyErr String :=
  match versionStr? value with
  | none => .error (.nameError "version_str")
  | some s => decodeVersionChars value s

/-- Splitting a character list at every `'.'` (each dot separates two
groups; no dot at all yields the one-element list of the input). -/
def splitDots : List Char → List (List Char)
  | [] => [[]]
  | c :: rest =>
    if c = '.' then [] :: splitDots rest
    else
      match splitDots rest with
      | [] => [[c]]
      | g :: gs => (c :: g) :: gs

/-- A group is a nonempty run of decimal digits. -/
def digGroup (g : List Char) : Bool := !g.isEmpty && g.all isDig

/-- The regular expression `^\d+\.\d+\.\d+$`: exactly three dot-separated
nonempty decimal-digit groups. -/
def matchesVersionPattern (s : String) : Bool :=
  match splitDots s.data with
  | [a, b, c] => digGroup a && digGroup b && digGroup c
  | _ => false

/-- The literal `" Update "` the title regex of `getVersion` (line 108)
requires in front of the version, as its character list. -/
def updateMarker : List Char := [' ', 'U', 'p', 'd', 'a', 't', 'e', ' ']

/-- Greedy match of `(\.\d)*` at the front of `cs`: the longest alternating
run of a dot followed by a single decimal digit. -/
def takePairs : List Char → List Char
  | c1 :: c2 :: rest =>
    if c1 = '.' && isDig c2 then c1 :: c2 :: takePairs rest else []
  | _ => []

/-- Greedy match of `\d+\.\d+(\.\d)*` at the front of `cs`: the substring the
regex engine captures at this position, or `none` when the pattern does not
match here.  (All parts of the pattern are greedy and a digit can never
stand for the dot, so greedy maximal runs reproduce the regex semantics.) -/
def matchVersionAt (cs : List Char) : Option (List Char) :=
  let d1 := cs.takeWhile isDig
  if d1.isEmpty then none
  else
    match cs.dropWhile isDig with
    | c :: rest2 =>
      if c = '.' then
        let d2 := rest2.takeWhile isDig
        if d2.isEmpty then none
        else some (d1 ++ '.' :: (d2 ++ takePairs (rest2.dropWhile isDig)))
      else none
    | [] => none

/-- `re.search(r"( Update )(?P<version>\d+\.\d+(\.\d)*)", ·)`: the version
group of the leftmost match — the first position carrying the literal
`" Update "` immediately followed by a version. -/
def searchUpdateVersion : List Char → Option (List Char)
  | [] => none
  | c :: rest =>
    if (c :: rest).take 8 = updateMarker then
      match matchVersionAt ((c :: rest).drop 8) with
      | some v => some v
      | none => searchUpdateVersion rest
    else searchUpdateVersion rest

/-- The `ProcessorError` message of `getVersion` (lines 110-112). -/
def titleErrMsg (title : String) : String :=
  "Error validating Office 2016 version extracted from Title manifest value: '"
    ++ title ++ "'"

/-- `getVersion` (lines 102-114) applied to the item title: extracts the
version that follows `" Update "`, or raises the line-110 `ProcessorError`
quoting the title. -/
def getVersion (title : String) : Except PyErr String :=
  match searchUpdateVersion title.data with
  | some v => .ok ⟨v⟩
  | none => .error (.processorError (titleErrMsg title))

/-- One entry of the parsed Microsoft metadata plist, with the fields the
processor reads: `Title`, `Location`, `Date` (a comparable timestamp,
modelled as a natural number), `Max OS`/`Min OS` (packed versions),
`Trigger Condition` (a plist array of strings), the key set of `Triggers`,
and the optional `Localized` map (locale code to field map). -/
structure FeedItem where
  title : String
  location : String
  date : Nat
  maxOS : PyVal
  minOS : PyVal
  triggerCondition : List String
  triggers : List String
  localized : Option (List (String × List (String × String)))
deriving DecidableEq, Repr

/-- Lookup in a Python dict modelled as an association list. -/
def alookup (k : String) : List (String × α) → Option α
  | [] => none
  | (k', v) :: rest => if k' = k then some v else alookup k rest

/-- Python `repr` of a list of strings, as `"%s"` formats the
`Trigger Condition` array in the line-80 error message. -/
def pyStrListRepr (l : List String) : String :=
  "[" ++ String.intercalate ", " (l.map fun s => "'" ++ s ++ "'") ++ "]"

/-- `sanityCheckExpectedTriggers` (lines 72-86): requires
`Trigger Condition == ["and", "Registered File"]` and `"Registered File"`
among the `Triggers` keys, raising a `ProcessorError` naming the item's
title otherwise. -/
def sanityCheckExpectedTriggers (item : FeedItem) : Except PyErr Unit :=
  if item.triggerCondition ≠ ["and", "Registered File"] then
    .error (.processorError ("Unexpected Trigger Condition in item "
      ++ item.title ++ ": " ++ pyStrListRepr item.triggerCondition))
  else if "Registered File" ∉ item.triggers then
    .error (.processorError ("Missing expected 'and Registered File' Trigger in item "
      ++ item.title))
  else .ok ()

/-- One element of the `installs` list `getInstallsItems` builds
(lines 94-99).  The Python dict key `type` is the field `type'`. -/
structure InstallsItem where
  CFBundleShortVersionString : String
  CFBundleVersion : String
  path : String
  type' : String
deriving DecidableEq, Repr

/-- `getInstallsItems` (lines 88-100): sanity-checks the triggers, extracts
the version from the title, and returns the single installs item (with
`self.env["product"]` as the product name in the path). -/
def getInstallsItems (item : FeedItem) (product : String) :
    Except PyErr (List InstallsItem) :=
  match sanityCheckExpectedTriggers item with
  | .error e => .error e
  | .ok _ =>
    match getVersion item.title with
    | .error e => .error e
    | .ok version =>
      .ok [{ CFBundleShortVersionString := version
             CFBundleVersion := version
             path := "/Applications/Microsoft " ++ product ++ ".app"
             type' := "application" }]

/-- `CULTURE_CODE` (line 31). -/
def CULTURE_CODE : String := "0409"

/-- `PROD_DICT` (lines 33-39): the supported product names and their feed
product codes. -/
def PROD_DICT : List (String × String) :=
  [("Excel", "XCEL"), ("OneNote", "ONMC"), ("Outlook", "OPIM"),
   ("PowerPoint", "PPT3"), ("Word", "MSWD")]

/-- `BASE_URL % (CULTURE_CODE + prod_code)` (lines 32, 145). -/
def baseUrl (prodCode : String) : String :=
  "http://www.microsoft.com/mac/autoupdate/" ++ CULTURE_CODE ++ prodCode ++ "15.xml"

/-- Stable insertion of an item into a date-ascending list: the item goes
after every earlier item whose date is strictly smaller, before the first
whose date is at least its own. -/
def insertByDate (x : FeedItem) : List FeedItem → List FeedItem
  | [] => [x]
  | y :: ys => if y.date < x.date then y :: insertByDate x ys else x :: y :: ys

/-- `sorted(metadata, key=itemgetter('Date'))` (line 165): the stable
date-ascending sort of the entry list (all stable sorts agree, so insertion
sort stands in for Python's timsort). -/
def sortByDate : List FeedItem → List FeedItem
  | [] => []
  | x :: xs => insertByDate x (sortByDate xs)

/-- `metadata[0].get("Localized")` followed by `['1033']['Short Description']`
(lines 176-177): `TypeError` when `Localized` is absent (`None['1033']`),
`KeyError` when the locale or the field is missing. -/
def getShortDescription (first : FeedItem) : Except PyErr String :=
  match first.localized with
  | none => .error (.typeError "'NoneType' object has no attribute '__getitem__'")
  | some locs =>
    match alookup "1033" locs with
    | none => .error (.keyError "1033")
    | some fields =>
      match alookup "Short Description" fields with
      | none => .error (.keyError "Short Description")
      | some sd => .ok sd

/-- The `additional_pkginfo` record assembled in lines 174-187. -/
structure PkgInfo where
  description : String
  display_name : String
  maximum_os_version : Option String
  minimum_os_version : Option String
  installs : Option (List InstallsItem)
deriving DecidableEq, Repr

/-- What one run of `getInstallerinfo` leaves behind: whether the network
request was issued, which of the three output variables were assigned, and
the failure (if any) that aborted the run. -/
structure ResolveResult where
  fetched : Bool
  url : Option String
  version : Option String
  additional_pkginfo : Option PkgInfo
  error : Option PyErr
deriving DecidableEq, Repr

/-- Lines 169-191 of `getInstallerinfo`, entered once an `item` has been
selected: `self.env["url"]` is assigned first (line 169), then the pkginfo
fields are computed in source order — description from
`metadata[0]`'s `Localized` (lines 176-177), display name, `Max OS` /
`Min OS` decoding with the `0.0.0` sentinel dropping the field (179-184),
the installs list (185-187) — then `version` (188) and
`additional_pkginfo` (189) are assigned.  Any failure after line 169
leaves `url` assigned and the other outputs unset. -/
def buildPkginfo (product : String) (metadata : List FeedItem) (item : FeedItem) :
    ResolveResult :=
  let url0 := item.location
  let fail : PyErr → ResolveResult := fun e =>
    { fetched := true, url := some url0, version := none,
      additional_pkginfo := none, error := some e }
  match metadata.head? with
  | none => fail .indexError
  | some first =>
    match getShortDescription first with
    | .error e => fail e
    | .ok sd =>
      match valueToOSVersionString item.maxOS with
      | .error e => fail e
      | .ok maxOs =>
        match valueToOSVersionString item.minOS with
        | .error e => fail e
        | .ok minOs =>
          match getInstallsItems item product with
          | .error e => fail e
          | .ok installsItems =>
            match getVersion item.title with
            | .error e => fail e
            | .ok version =>
              { fetched := true
                url := some url0
                version := some version
                additional_pkginfo := some
                  { description := "<html>" ++ sd ++ "</html>"
                    display_name := item.title
                    maximum_os_version := if maxOs ≠ "0.0.0" then some maxOs else none
                    minimum_os_version := if minOs ≠ "0.0.0" then some minOs else none
                    installs := if installsItems.isEmpty then none
                                else some installsItems }
                error := none }

/-- `getInstallerinfo` (lines 141-191).  `fetch` stands for the network
collaborator: the outcome of `urllib2.urlopen` + `read` + plist parsing of
the per-product feed (an exception message, or the entry list).  Looking up
an unknown product gives `prod_code = None` and the line-145 string
concatenation raises `TypeError` before the request is built; a fetch
exception raises the line-159 `ProcessorError`; with the `"latest"`
selector the sorted list's last entry is chosen (`IndexError` on an empty
feed); with any other selector the local `item` is never assigned, so
line 169 raises `NameError`. -/
def getInstallerinfo (product : String) (versionSel : String)
    (fetch : Except String (List FeedItem)) : ResolveResult :=
  match alookup product PROD_DICT with
  | none =>
    { fetched := false, url := none, version := none, additional_pkginfo := none,
      error := some (.typeError "cannot concatenate 'str' and 'NoneType' objects") }
  | some prodCode =>
    match fetch with
    | .error err =>
      { fetched := true, url := none, version := none, additional_pkginfo := none,
        error := some (.processorError ("Can't download " ++ baseUrl prodCode
          ++ ": " ++ err)) }
    | .ok metadata =>
      if versionSel = "latest" then
        match (sortByDate metadata).getLast? with
        | none =>
          { fetched := true, url := none, version := none,
            additional_pkginfo := none, error := some .indexError }
        | some item => buildPkginfo product metadata item
      else
        { fetched := true, url := none, version := none, additional_pkginfo := none,
          error := some (.nameError "item") }

/-- A group arising from `(\.\d)`: exactly one character, a decimal digit. -/
def grpOK (g : List Char) : Bool := g.length == 1 && g.all isDig

/-- The shape `\d+\.\d+(\.\d)*` of a whole character list: splitting at dots
gives a nonempty digit group, another nonempty digit group, then only
single-digit groups. -/
def isVersionShape (v : List Char) : Bool :=
  match splitDots v with
  | d1 :: d2 :: rest => digGroup d1 && digGroup d2 && rest.all grpOK
  | _ => false

/-- The positional decoding algorithm exactly as §4.1 of the specification
words it, on the hex digit string: major is the single character (decimal)
at length 1 or the first two characters (decimal) at length ≥ 2, minor the
third character (base 16) at length ≥ 3, patch the fourth (base 16) at
length ≥ 4, further positions ignored, missing positions 0; `none` when an
extracted substring does not parse in its stated base. -/
def specVersionAlg (s : List Char) : Option String :=
  match (if s.length = 1 then pyIntParse 10 (s.take 1)
         else if 2 ≤ s.length then pyIntParse 10 (s.take 2)
         else some 0) with
  | none => none
  | some major =>
    match (if 3 ≤ s.length then pyIntParse 16 ((s.drop 2).take 1) else some 0) with
    | none => none
    | some minor =>
      match (if 4 ≤ s.length then pyIntParse 16 ((s.drop 3).take 1) else some 0) with
      | none => none
      | some patch => some (formatVersion major minor patch)

/-- A `Localized` map carrying the en-US (`1033`) short description `A`. -/
def exLoc1 : List (String × List (String × String)) :=
  [("1033", [("Short Description", "A")])]

/-- A `Localized` map carrying the en-US (`1033`) short description `B`. -/
def exLoc2 : List (String × List (String × String)) :=
  [("1033", [("Short Description", "B")])]

/-- An older feed entry (date 1, short description `A`). -/
def exItem1 : FeedItem :=
  { title := "Microsoft Excel Update 15.9"
    location := "http://u1"
    date := 1
    maxOS := .int 0
    minOS := .int 4184
    triggerCondition := ["and", "Registered File"]
    triggers := ["Registered File"]
    localized := some exLoc1 }

/-- A newer feed entry (date 2, short description `B`). -/
def exItem2 : FeedItem :=
  { title := "Microsoft Excel Update 15.10"
    location := "http://u2"
    date := 2
    maxOS := .int 0
    minOS := .int 4184
    triggerCondition := ["and", "Registered File"]
    triggers := ["Registered File"]
    localized := some exLoc2 }

/-- `exItem1` with an unexpected trigger condition. -/
def exItemBadTrigger : FeedItem :=
  { exItem1 with triggerCondition := ["bogus"] }

theorem digitChar_isDig : ∀ m : Nat, m < 10 → isDig (Nat.digitChar m) = true := by
  decide

/-- The marker list spells exactly the literal `" Update "`. -/
theorem updateMarker_eq : updateMarker = (" Update ").data := rfl

theorem toDigitsCore_digits :
    ∀ (fuel n : Nat) (acc : List Char), (∀ c ∈ acc, isDig c = true) →
      ∀ c ∈ Nat.toDigitsCore 10 fuel n acc, isDig c = true := by
  intro fuel
  induction fuel with
  | zero => intro n acc hacc; simpa [Nat.toDigitsCore] using hacc
  | succ fuel ih =>
    intro n acc hacc c hc
    have hd : isDig (Nat.digitChar (n % 10)) = true :=
      digitChar_isDig _ (Nat.mod_lt _ (by omega))
    have hacc' : ∀ c ∈ Nat.digitChar (n % 10) :: acc, isDig c = true := by
      intro c hc
      rcases List.mem_cons.mp hc with h | h
      · exact h ▸ hd
      · exact hacc c h
    simp only [Nat.toDigitsCore] at hc
    by_cases hz : n / 10 = 0
    · rw [if_pos hz] at hc
      exact hacc' c hc
    · rw [if_neg hz] at hc
      exact ih (n / 10) _ hacc' c hc

theorem toDigitsCore_ne_nil (b : Nat) :
    ∀ (fuel n : Nat) (acc : List Char), acc ≠ [] →
      Nat.toDigitsCore b fuel n acc ≠ [] := by
  intro fuel
  induction fuel with
  | zero => intro n acc hacc; simpa [Nat.toDigitsCore] using hacc
  | succ fuel ih =>
    intro n acc hacc
    simp only [Nat.toDigitsCore]
    by_cases hz : n / b = 0
    · rw [if_pos hz]; exact List.cons_ne_nil _ _
    · rw [if_neg hz]; exact ih (n / b) _ (List.cons_ne_nil _ _)

theorem natRepr_digits (n : Nat) : ∀ c ∈ (Nat.repr n).data, isDig c = true := by
  intro c hc
  have : (Nat.repr n).data = Nat.toDigits 10 n := rfl
  rw [this] at hc
  exact toDigitsCore_digits (n + 1) n [] (by simp) c hc

theorem toDigitsCore_ne_nil' (b : Nat) :
    ∀ (fuel n : Nat) (acc : List Char), fuel ≠ 0 →
      Nat.toDigitsCore b fuel n acc ≠ [] := by
  intro fuel n acc hf
  cases fuel with
  | zero => exact absurd rfl hf
  | succ f =>
    simp only [Nat.toDigitsCore]
    by_cases hz : n / b = 0
    · rw [if_pos hz]; exact List.cons_ne_nil _ _
    · rw [if_neg hz]; exact toDigitsCore_ne_nil b f _ _ (List.cons_ne_nil _ _)

theorem natRepr_ne_nil (n : Nat) : (Nat.repr n).data ≠ [] := by
  have : (Nat.repr n).data = Nat.toDigits 10 n := rfl
  rw [this]
  exact toDigitsCore_ne_nil' 10 (n + 1) n [] (by omega)

theorem isDig_ne_dot {c : Char} (h : isDig c = true) : c ≠ '.' := by
  intro he; subst he; exact absurd h (by decide)

theorem splitDots_ne_nil : ∀ cs : List Char, splitDots cs ≠ []
  | [] => by simp [splitDots]
  | c :: rest => by
    by_cases h : c = '.'
    · simp [splitDots, h]
    · simp only [splitDots, if_neg h]
      rcases hr : splitDots rest with _ | ⟨g, gs⟩
      · simp
      · simp

theorem splitDots_no_dot :
    ∀ cs : List Char, (∀ c ∈ cs, c ≠ '.') → splitDots cs = [cs]
  | [], _ => rfl
  | c :: rest, h => by
    have hc : c ≠ '.' := h c (by simp)
    have hrest := splitDots_no_dot rest (fun x hx => h x (by simp [hx]))
    simp [splitDots, if_neg hc, hrest]

theorem splitDots_append_dot :
    ∀ (a b : List Char), (∀ c ∈ a, c ≠ '.') →
      splitDots (a ++ '.' :: b) = a :: splitDots b
  | [], b, _ => by simp [splitDots]
  | c :: a', b, h => by
    have hc : c ≠ '.' := h c (by simp)
    have ha' := splitDots_append_dot a' b (fun x hx => h x (by simp [hx]))
    simp [splitDots, if_neg hc, ha']

theorem formatVersion_data (a b c : Nat) :
    (formatVersion a b c).data =
      (Nat.repr a).data ++ '.' :: ((Nat.repr b).data ++ '.' :: (Nat.repr c).data) := by
  show ((((Nat.repr a ++ ".") ++ Nat.repr b) ++ ".") ++ Nat.repr c).data = _
  simp only [String.data_append]
  simp [List.append_assoc]

theorem digGroup_natRepr (n : Nat) : digGroup (Nat.repr n).data = true := by
  have h1 := natRepr_ne_nil n
  have h2 := natRepr_digits n
  simp only [digGroup, List.isEmpty_iff, List.all_eq_true, Bool.and_eq_true,
    Bool.not_eq_true']
  refine ⟨?_, h2⟩
  simp [List.isEmpty_iff, h1]

theorem matchesVersionPattern_format (a b c : Nat) :
    matchesVersionPattern (formatVersion a b c) = true := by
  unfold matchesVersionPattern
  rw [formatVersion_data]
  have hnd : ∀ n : Nat, ∀ x ∈ (Nat.repr n).data, x ≠ '.' :=
    fun n x hx => isDig_ne_dot (natRepr_digits n x hx)
  rw [splitDots_append_dot _ _ (hnd a), splitDots_append_dot _ _ (hnd b),
    splitDots_no_dot _ (hnd c)]
  simp [digGroup_natRepr]

/-- The `try` block of the decoder either succeeds with a formatted
`major.minor.patch` triple or raises the line-138 `ProcessorError`. -/
theorem decodeVersionChars_cases (value : PyVal) (s : List Char) :
    (∃ a b c, decodeVersionChars value s = .ok (formatVersion a b c)) ∨
      decodeVersionChars value s =
        .error (.processorError (versionErrMsg value)) := by
  unfold decodeVersionChars
  rcases hM : (if s.length = 1 then pyIntParse 10 (s.take 1)
      else if 1 < s.length then pyIntParse 10 (s.take 2)
      else some 0) with _ | major
  · right; rfl
  rcases hm : (if 2 < s.length then pyIntParse 16 ((s.drop 2).take 1) else some 0)
      with _ | minor
  · right; rfl
  rcases hp : (if 3 < s.length then pyIntParse 16 ((s.drop 3).take 1) else some 0)
      with _ | patch
  · right; rfl
  exact Or.inl ⟨major, minor, patch, rfl⟩

/-- The `try` block never produces the unbound-variable failure: that can
only come from `version_str` being unassigned before it. -/
theorem decodeVersionChars_ne_nameError (value : PyVal) (s : List Char) (m : String) :
    decodeVersionChars value s ≠ .error (.nameError m) := by
  rcases decodeVersionChars_cases value s with ⟨a, b, c, h⟩ | h <;> simp [h]

/-- C1 counterexample input: `hex(10) = "0xa"`, and `int("a")` (base 10)
raises `ValueError`, so decoding 10 fails although 10 is in [0, 65535]. -/
theorem valueToOSVersionString_ten :
    valueToOSVersionString (.int 10) =
      .error (.processorError "Unexpected value in version: 10") := by decide

/-- C1 (amended): over [0, 65535], `valueToOSVersionString` is a pure
function (hence deterministic) that either returns a string matching
`^\d+\.\d+\.\d+$` or raises the decoder's `ProcessorError`; decoding 4184
succeeds with a pattern-matching string. -/
theorem valueToOSVersionString_range_pattern :
    (∀ n : Nat, n ≤ 65535 →
      (∃ s, valueToOSVersionString (.int n) = .ok s ∧
        matchesVersionPattern s = true) ∨
      (∃ m, valueToOSVersionString (.int n) =
        .error (.processorError m))) ∧
    (∀ v : PyVal, valueToOSVersionString v = valueToOSVersionString v) ∧
    (∃ s, valueToOSVersionString (.int 4184) = .ok s ∧
      matchesVersionPattern s = true) := by
  refine ⟨?_, fun _ => rfl, "10.5.8", by decide, by decide⟩
  intro n _
  show (∃ s, decodeVersionChars (.int n) ((pyHexChars n).drop 2) = .ok s ∧ _) ∨ _
  rcases decodeVersionChars_cases (.int n) ((pyHexChars (n : Int)).drop 2) with
    ⟨a, b, c, h⟩ | h
  · exact Or.inl ⟨formatVersion a b c, h, matchesVersionPattern_format a b c⟩
  · exact Or.inr ⟨versionErrMsg (.int n), h⟩

/-- C6: on every input whose `version_str` gets assigned (every `int`, every
`0x`-prefixed string), the decoder returns exactly what the specification's
positional algorithm computes on the digit string — the formatted triple on
success, the `ValueDecodeError` (`ProcessorError`) on a parse failure — and
the two reference values decode as stated. -/
theorem valueToOSVersionString_spec_alg :
    (∀ (value : PyVal) (vs : List Char), versionStr? value = some vs →
      valueToOSVersionString value =
        (match specVersionAlg vs with
         | some out => Except.ok out
         | none => Except.error (.processorError (versionErrMsg value)))) ∧
    valueToOSVersionString (.int 4184) = .ok "10.5.8" ∧
    valueToOSVersionString (.int 0) = .ok "0.0.0" := by
  refine ⟨?_, by decide, by decide⟩
  intro value vs h
  have hv : valueToOSVersionString value = decodeVersionChars value vs := by
    unfold valueToOSVersionString
    rw [h]
  rw [hv]
  have eM : (if vs.length = 1 then pyIntParse 10 (vs.take 1)
        else if 2 ≤ vs.length then pyIntParse 10 (vs.take 2) else some 0)
      = (if vs.length = 1 then pyIntParse 10 (vs.take 1)
        else if 1 < vs.length then pyIntParse 10 (vs.take 2) else some 0) := rfl
  have e3 : (if 3 ≤ vs.length then pyIntParse 16 ((vs.drop 2).take 1) else some 0)
      = (if 2 < vs.length then pyIntParse 16 ((vs.drop 2).take 1) else some 0) := rfl
  have e4 : (if 4 ≤ vs.length then pyIntParse 16 ((vs.drop 3).take 1) else some 0)
      = (if 3 < vs.length then pyIntParse 16 ((vs.drop 3).take 1) else some 0) := rfl
  unfold decodeVersionChars specVersionAlg
  rw [eM, e3, e4]
  rcases hM : (if vs.length = 1 then pyIntParse 10 (vs.take 1)
      else if 1 < vs.length then pyIntParse 10 (vs.take 2)
      else some 0) with _ | major
  · rfl
  rcases hm : (if 2 < vs.length then pyIntParse 16 ((vs.drop 2).take 1) else some 0)
      with _ | minor
  · rfl
  rcases hp : (if 3 < vs.length then pyIntParse 16 ((vs.drop 3).take 1) else some 0)
      with _ | patch
  · rfl
  rfl

/-- C10: a string input that does not start with `0x` leaves `version_str`
unassigned, so the decoder fails with an uncaught `NameError` (not the
`ProcessorError` of the error taxonomy); on `int` inputs and `0x`-prefixed
string inputs that unbound-variable failure never occurs. -/
theorem valueToOSVersionString_unprefixed_string :
    (∀ s : String, s.data.take 2 ≠ ['0', 'x'] →
      valueToOSVersionString (.str s) = .error (.nameError "version_str")) ∧
    (∀ (n : Int) (m : String),
      valueToOSVersionString (.int n) ≠ .error (.nameError m)) ∧
    (∀ (s : String) (m : String), s.data.take 2 = ['0', 'x'] →
      valueToOSVersionString (.str s) ≠ .error (.nameError m)) := by
  refine ⟨fun s h => ?_, fun n m => ?_, fun s m h => ?_⟩
  · simp [valueToOSVersionString, versionStr?, h]
  · show decodeVersionChars _ _ ≠ _
    exact decodeVersionChars_ne_nameError _ _ _
  · simp only [valueToOSVersionString, versionStr?, h, if_pos]
    exact decodeVersionChars_ne_nameError _ _ _

theorem takeWhile_all_append (p : Char → Bool) :
    ∀ (a : List Char) (b : Char) (t : List Char),
      (∀ c ∈ a, p c = true) → p b = false →
      (a ++ b :: t).takeWhile p = a
  | [], b, t, _, hb => by simp [List.takeWhile_cons, hb]
  | c :: a', b, t, ha, hb => by
    have hc : p c = true := ha c (by simp)
    have := takeWhile_all_append p a' b t (fun x hx => ha x (by simp [hx])) hb
    simp [List.takeWhile_cons, hc, this]

theorem dropWhile_all_append (p : Char → Bool) :
    ∀ (a : List Char) (b : Char) (t : List Char),
      (∀ c ∈ a, p c = true) → p b = false →
      (a ++ b :: t).dropWhile p = b :: t
  | [], b, t, _, hb => by simp [List.dropWhile_cons, hb]
  | c :: a', b, t, ha, hb => by
    have hc : p c = true := ha c (by simp)
    have := dropWhile_all_append p a' b t (fun x hx => ha x (by simp [hx])) hb
    simp [List.dropWhile_cons, hc, this]

theorem isDig_dot : isDig '.' = false := by decide

theorem takePairs_cases (r : List Char) :
    takePairs r = [] ∨
      ∃ c2 rest, isDig c2 = true ∧ takePairs r = '.' :: c2 :: takePairs rest := by
  match r with
  | [] => exact Or.inl rfl
  | [c] => exact Or.inl rfl
  | c1 :: c2 :: rest =>
    by_cases h : c1 = '.' ∧ isDig c2 = true
    · refine Or.inr ⟨c2, rest, h.2, ?_⟩
      simp [takePairs, h.1, h.2]
    · left
      rw [takePairs, if_neg]
      simp only [Bool.and_eq_true, decide_eq_true_eq]
      exact h

theorem takePairs_prefix : ∀ r : List Char, ∃ r', r = takePairs r ++ r'
  | [] => ⟨[], rfl⟩
  | [c] => ⟨[c], rfl⟩
  | c1 :: c2 :: rest => by
    by_cases h : c1 = '.' ∧ isDig c2 = true
    · obtain ⟨r', hr⟩ := takePairs_prefix rest
      refine ⟨r', ?_⟩
      rw [takePairs, if_pos (by simp [h.1, h.2])]
      simp only [List.cons_append]
      rw [← hr]
    · refine ⟨c1 :: c2 :: rest, ?_⟩
      rw [takePairs, if_neg (by simp only [Bool.and_eq_true, decide_eq_true_eq]; exact h)]
      rfl

theorem splitDots_cons_dot (rest : List Char) :
    splitDots ('.' :: rest) = [] :: splitDots rest := by
  simp [splitDots]

theorem splitDots_cons_ne_dot {c : Char} (h : ¬c = '.') (rest : List Char)
    {g : List Char} {gs : List (List Char)} (hr : splitDots rest = g :: gs) :
    splitDots (c :: rest) = (c :: g) :: gs := by
  simp [splitDots, h, hr]

theorem takePairs_singleton_groups :
    ∀ (r : List Char) (c : Char), isDig c = true →
      (splitDots (c :: takePairs r)).all grpOK = true
  | [], c, hc => by simp [takePairs, splitDots, isDig_ne_dot hc, grpOK, hc]
  | [x], c, hc => by simp [takePairs, splitDots, isDig_ne_dot hc, grpOK, hc]
  | c1 :: c2 :: rest, c, hc => by
    by_cases h : c1 = '.' ∧ isDig c2 = true
    · rw [takePairs, if_pos (by simp [h.1, h.2]), h.1]
      rcases hs : splitDots (c2 :: takePairs rest) with _ | ⟨g, gs⟩
      · exact absurd hs (splitDots_ne_nil _)
      · have hdot : splitDots ('.' :: c2 :: takePairs rest) = [] :: g :: gs := by
          rw [splitDots_cons_dot, hs]
        rw [splitDots_cons_ne_dot (isDig_ne_dot hc) _ hdot]
        have hrec := takePairs_singleton_groups rest c2 h.2
        rw [hs] at hrec
        simp only [List.all_cons, Bool.and_eq_true] at hrec ⊢
        exact ⟨by simp [grpOK, hc], hrec⟩
    · rw [takePairs, if_neg (by simp only [Bool.and_eq_true, decide_eq_true_eq]; exact h)]
      simp [splitDots, isDig_ne_dot hc, grpOK, hc]

theorem digGroup_of (g : List Char) (hne : g ≠ []) (hd : ∀ c ∈ g, isDig c = true) :
    digGroup g = true := by
  simp only [digGroup, Bool.and_eq_true, Bool.not_eq_true', List.all_eq_true]
  exact ⟨by simp [List.isEmpty_iff, hne], hd⟩

theorem digGroup_iff (g : List Char) :
    digGroup g = true ↔ g ≠ [] ∧ ∀ c ∈ g, isDig c = true := by
  simp [digGroup, Bool.and_eq_true, List.isEmpty_iff, List.all_eq_true]

/-- Shape of a successful front match: the captured substring has the
version shape and is a prefix of the input. -/
theorem matchVersionAt_sound (cs v : List Char) (h : matchVersionAt cs = some v) :
    isVersionShape v = true ∧ ∃ rest, cs = v ++ rest := by
  unfold matchVersionAt at h
  by_cases h1 : (cs.takeWhile isDig).isEmpty
  · simp [h1] at h
  rcases hd : cs.dropWhile isDig with _ | ⟨c, rest2⟩
  · rw [hd] at h; simp [h1] at h
  rw [hd] at h
  simp only [h1, Bool.false_eq_true, if_false] at h
  by_cases hc : c = '.'
  · rw [if_pos hc] at h
    by_cases h2 : (rest2.takeWhile isDig).isEmpty
    · simp [h2] at h
    simp only [h2, Bool.false_eq_true, if_false, Option.some.injEq] at h
    subst h
    subst hc
    have hd1ne : cs.takeWhile isDig ≠ [] := by
      simpa [List.isEmpty_iff] using h1
    have hd1dig : ∀ x ∈ cs.takeWhile isDig, isDig x = true :=
      fun x hx => List.mem_takeWhile_imp hx
    have hd2ne : rest2.takeWhile isDig ≠ [] := by
      simpa [List.isEmpty_iff] using h2
    have hd2dig : ∀ x ∈ rest2.takeWhile isDig, isDig x = true :=
      fun x hx => List.mem_takeWhile_imp hx
    constructor
    · unfold isVersionShape
      have hnd1 : ∀ x ∈ cs.takeWhile isDig, x ≠ '.' :=
        fun x hx => isDig_ne_dot (hd1dig x hx)
      rw [splitDots_append_dot _ _ hnd1]
      rcases takePairs_cases (rest2.dropWhile isDig) with hp | ⟨c2, rest3, hc2, hp⟩
      · rw [hp, List.append_nil,
          splitDots_no_dot _ (fun x hx => isDig_ne_dot (hd2dig x hx))]
        simp [digGroup_of _ hd1ne hd1dig, digGroup_of _ hd2ne hd2dig]
      · rw [hp, splitDots_append_dot _ _ (fun x hx => isDig_ne_dot (hd2dig x hx))]
        have hsg := takePairs_singleton_groups rest3 c2 hc2
        simp only [List.all_cons, Bool.and_eq_true] at hsg ⊢
        exact ⟨⟨digGroup_of _ hd1ne hd1dig, digGroup_of _ hd2ne hd2dig⟩, hsg⟩
    · obtain ⟨r', hr'⟩ := takePairs_prefix (rest2.dropWhile isDig)
      refine ⟨r', ?_⟩
      have e1 : rest2.takeWhile isDig ++ (takePairs (rest2.dropWhile isDig) ++ r')
          = rest2 := by
        rw [← hr', List.takeWhile_append_dropWhile]
      rw [List.append_assoc, List.cons_append, List.append_assoc, e1, ← hd,
        List.takeWhile_append_dropWhile]
  · rw [if_neg hc] at h
    exact absurd h (by simp)

/-- A position carrying digits, a dot and digits always yields a front
match (whatever follows). -/
theorem matchVersionAt_isSome (d1 d2 tail : List Char)
    (h1 : d1 ≠ []) (h1d : ∀ c ∈ d1, isDig c = true)
    (h2 : d2 ≠ []) (h2d : ∀ c ∈ d2, isDig c = true) :
    ∃ w, matchVersionAt (d1 ++ '.' :: (d2 ++ tail)) = some w := by
  have htake : (d1 ++ '.' :: (d2 ++ tail)).takeWhile isDig = d1 :=
    takeWhile_all_append isDig d1 '.' (d2 ++ tail) h1d isDig_dot
  have hdrop : (d1 ++ '.' :: (d2 ++ tail)).dropWhile isDig = '.' :: (d2 ++ tail) :=
    dropWhile_all_append isDig d1 '.' (d2 ++ tail) h1d isDig_dot
  have h2' : (d2 ++ tail).takeWhile isDig ≠ [] := by
    rcases d2 with _ | ⟨c0, d2'⟩
    · exact absurd rfl h2
    · have : isDig c0 = true := h2d c0 (by simp)
      simp [List.takeWhile_cons, this]
  refine ⟨d1 ++ '.' :: ((d2 ++ tail).takeWhile isDig ++
    takePairs ((d2 ++ tail).dropWhile isDig)), ?_⟩
  unfold matchVersionAt
  rw [htake, hdrop]
  simp only [List.isEmpty_iff, h1, if_neg, if_pos]
  simp [List.isEmpty_iff, h2']

theorem splitDots_recomp :
    ∀ (v g : List Char) (gs : List (List Char)), splitDots v = g :: gs →
      (gs = [] ∧ v = g) ∨ ∃ b, v = g ++ '.' :: b ∧ splitDots b = gs
  | [], g, gs, h => by
    simp only [splitDots, List.cons.injEq] at h
    exact Or.inl ⟨h.2.symm, h.1⟩
  | c :: rest, g, gs, h => by
    by_cases hc : c = '.'
    · subst hc
      rw [splitDots_cons_dot] at h
      obtain ⟨hg, hgs⟩ := List.cons.inj h
      exact Or.inr ⟨rest, by rw [← hg]; rfl, hgs⟩
    · rcases hr : splitDots rest with _ | ⟨g', gs'⟩
      · exact absurd hr (splitDots_ne_nil _)
      rw [splitDots_cons_ne_dot hc _ hr] at h
      obtain ⟨hg, hgs⟩ := List.cons.inj h
      rcases splitDots_recomp rest g' gs' hr with ⟨hnil, hrg⟩ | ⟨b, hb, hsb⟩
      · exact Or.inl ⟨hgs ▸ hnil, by rw [← hg, hrg]⟩
      · exact Or.inr ⟨b, by rw [← hg, hb]; rfl, hgs ▸ hsb⟩

theorem isVersionShape_decomp (v : List Char) (h : isVersionShape v = true) :
    ∃ d1 d2 t, v = d1 ++ '.' :: (d2 ++ t) ∧
      d1 ≠ [] ∧ (∀ c ∈ d1, isDig c = true) ∧
      d2 ≠ [] ∧ (∀ c ∈ d2, isDig c = true) := by
  unfold isVersionShape at h
  rcases hs : splitDots v with _ | ⟨d1, rest1⟩
  · exact absurd hs (splitDots_ne_nil _)
  rcases rest1 with _ | ⟨d2, rest⟩
  · rw [hs] at h; simp at h
  rw [hs] at h
  simp only [Bool.and_eq_true] at h
  obtain ⟨⟨hg1, hg2⟩, _⟩ := h
  obtain ⟨h1ne, h1d⟩ := (digGroup_iff d1).mp hg1
  obtain ⟨h2ne, h2d⟩ := (digGroup_iff d2).mp hg2
  rcases splitDots_recomp v d1 (d2 :: rest) hs with ⟨hnil, _⟩ | ⟨b, hb, hsb⟩
  · exact absurd hnil (by simp)
  rcases splitDots_recomp b d2 rest hsb with ⟨_, hbg⟩ | ⟨b2, hb2, _⟩
  · exact ⟨d1, d2, [], by rw [hb, hbg, List.append_nil], h1ne, h1d, h2ne, h2d⟩
  · exact ⟨d1, d2, '.' :: b2, by rw [hb, hb2], h1ne, h1d, h2ne, h2d⟩

/-- Evaluating the search at a position whose text starts with the marker
and matches: it succeeds there. -/
theorem searchUpdateVersion_marker (X : List Char) (w : List Char)
    (hm : matchVersionAt X = some w) :
    searchUpdateVersion (updateMarker ++ X) = some w := by
  show searchUpdateVersion
    (' ' :: (['U', 'p', 'd', 'a', 't', 'e', ' '] ++ X)) = some w
  unfold searchUpdateVersion
  have hg : (' ' :: (['U', 'p', 'd', 'a', 't', 'e', ' '] ++ X)).take 8
      = updateMarker := by
    simp [updateMarker, List.take_succ_cons]
  have hd : (' ' :: (['U', 'p', 'd', 'a', 't', 'e', ' '] ++ X)).drop 8 = X := by
    simp [List.drop_succ_cons]
  rw [if_pos hg, hd, hm]

theorem searchUpdateVersion_sound :
    ∀ (cs v : List Char), searchUpdateVersion cs = some v →
      ∃ pre post, cs = pre ++ updateMarker ++ v ++ post ∧ isVersionShape v = true
  | [], v, h => by simp [searchUpdateVersion] at h
  | c :: rest, v, h => by
    rw [searchUpdateVersion] at h
    by_cases hg : (c :: rest).take 8 = updateMarker
    · rw [if_pos hg] at h
      rcases hm : matchVersionAt ((c :: rest).drop 8) with _ | w
      · rw [hm] at h
        obtain ⟨pre, post, hcs, hsh⟩ := searchUpdateVersion_sound rest v h
        exact ⟨c :: pre, post, by simp [hcs, List.append_assoc], hsh⟩
      · rw [hm] at h
        obtain hv := Option.some.inj h
        subst hv
        obtain ⟨hsh, r', hr'⟩ := matchVersionAt_sound _ w hm
        refine ⟨[], r', ?_, hsh⟩
        rw [List.nil_append]
        conv_lhs => rw [← List.take_append_drop 8 (c :: rest)]
        rw [hg, hr', List.append_assoc]
    · rw [if_neg hg] at h
      obtain ⟨pre, post, hcs, hsh⟩ := searchUpdateVersion_sound rest v h
      exact ⟨c :: pre, post, by simp [hcs, List.append_assoc], hsh⟩

theorem searchUpdateVersion_complete :
    ∀ (pre v post : List Char), isVersionShape v = true →
      ∃ w, searchUpdateVersion (pre ++ updateMarker ++ v ++ post) = some w
  | [], v, post, hsh => by
    obtain ⟨d1, d2, t, hv, h1ne, h1d, h2ne, h2d⟩ := isVersionShape_decomp v hsh
    have hX : v ++ post = d1 ++ '.' :: (d2 ++ (t ++ post)) := by
      rw [hv]; simp [List.append_assoc]
    obtain ⟨w, hw⟩ := matchVersionAt_isSome d1 d2 (t ++ post) h1ne h1d h2ne h2d
    refine ⟨w, ?_⟩
    rw [List.nil_append]
    exact searchUpdateVersion_marker (v ++ post) w (by rw [hX, hw])
  | c :: pre', v, post, hsh => by
    show ∃ w, searchUpdateVersion (c :: (pre' ++ updateMarker ++ v ++ post)) = some w
    rw [searchUpdateVersion]
    by_cases hg : (c :: (pre' ++ updateMarker ++ v ++ post)).take 8 = updateMarker
    · rw [if_pos hg]
      rcases hm : matchVersionAt
          ((c :: (pre' ++ updateMarker ++ v ++ post)).drop 8) with _ | w
      · exact searchUpdateVersion_complete pre' v post hsh
      · exact ⟨w, rfl⟩
    · rw [if_neg hg]
      exact searchUpdateVersion_complete pre' v post hsh

theorem getVersion_sound (title v : String) (h : getVersion title = .ok v) :
    ∃ pre post, title.data = pre ++ updateMarker ++ v.data ++ post ∧
      isVersionShape v.data = true := by
  unfold getVersion at h
  rcases hs : searchUpdateVersion title.data with _ | w
  · rw [hs] at h; exact absurd h (by simp)
  · rw [hs] at h
    obtain ⟨pre, post, hdec, hsh⟩ := searchUpdateVersion_sound title.data w hs
    have hv : v.data = w := by
      have : (⟨w⟩ : String) = v := Option.some.inj (by simpa using h)
      rw [← this]
    rw [hv]
    exact ⟨pre, post, hdec, hsh⟩

theorem getVersion_complete (title : String) (pre v post : List Char)
    (hdec : title.data = pre ++ updateMarker ++ v ++ post)
    (hsh : isVersionShape v = true) : ∃ w, getVersion title = .ok w := by
  obtain ⟨w, hw⟩ := searchUpdateVersion_complete pre v post hsh
  rw [← hdec] at hw
  exact ⟨⟨w⟩, by unfold getVersion; rw [hw]⟩

/-- C7: the title version extractor — the three reference examples; every
success captures a `\d+\.\d+(\.\d)*`-shaped substring standing immediately
after the literal `" Update "` in the title; whenever such a substring is
present the extraction succeeds; and every run either succeeds or raises
exactly the `ProcessorError` quoting the offending title (which the error
message contains verbatim). -/
theorem getVersion_spec :
    getVersion "Microsoft Excel Update 15.10" = .ok "15.10" ∧
    getVersion "Microsoft Excel Update 16.10.1" = .ok "16.10.1" ∧
    getVersion "Microsoft Excel 15.10" =
      .error (.processorError (titleErrMsg "Microsoft Excel 15.10")) ∧
    (∀ title v, getVersion title = .ok v →
      ∃ pre post, title.data = pre ++ updateMarker ++ v.data ++ post ∧
        isVersionShape v.data = true) ∧
    (∀ title pre v post, title.data = pre ++ updateMarker ++ v ++ post →
      isVersionShape v = true → ∃ w, getVersion title = .ok w) ∧
    (∀ title, (∃ v, getVersion title = .ok v) ∨
      getVersion title = .error (.processorError (titleErrMsg title))) ∧
    (∀ title, ∃ a b, (titleErrMsg title).data = a ++ title.data ++ b) := by
  refine ⟨by decide, by decide, by decide, getVersion_sound, ?_, ?_, ?_⟩
  · exact fun title pre v post hdec hsh => getVersion_complete title pre v post hdec hsh
  · intro title
    unfold getVersion
    rcases hs : searchUpdateVersion title.data with _ | w
    · exact Or.inr rfl
    · exact Or.inl ⟨⟨w⟩, rfl⟩
  · intro title
    refine ⟨("Error validating Office 2016 version extracted from Title "
      ++ "manifest value: '").data, ("'").data, ?_⟩
    show (_ ++ title ++ "'").data = _
    simp [String.data_append]

/-- C8: the installs-item builder — on an entry with the expected trigger
shape and an extractable title version `v` it returns exactly the single
descriptor with both version markers `v`, the product bundle path and type
`application`; on any entry whose trigger shape deviates it fails with the
trigger-shape `ProcessorError`, whose message contains the entry's title,
and returns no descriptor. -/
theorem getInstallsItems_spec :
    (∀ (item : FeedItem) (product v : String),
      item.triggerCondition = ["and", "Registered File"] →
      "Registered File" ∈ item.triggers →
      getVersion item.title = .ok v →
      getInstallsItems item product = .ok
        [{ CFBundleShortVersionString := v, CFBundleVersion := v,
           path := "/Applications/Microsoft " ++ product ++ ".app",
           type' := "application" }]) ∧
    (∀ (item : FeedItem) (product : String),
      item.triggerCondition ≠ ["and", "Registered File"] ∨
        "Registered File" ∉ item.triggers →
      ∃ msg, getInstallsItems item product = .error (.processorError msg) ∧
        ∃ a b, msg.data = a ++ item.title.data ++ b) := by
  constructor
  · intro item product v htc htr hv
    unfold getInstallsItems sanityCheckExpectedTriggers
    rw [htc]
    simp only [ne_eq, not_true_eq_false, if_false, htr, not_true_eq_false,
      if_false, hv, if_neg]
  · intro item product hdev
    unfold getInstallsItems sanityCheckExpectedTriggers
    by_cases htc : item.triggerCondition = ["and", "Registered File"]
    · rcases hdev with h | h
      · exact absurd htc h
      · refine ⟨"Missing expected 'and Registered File' Trigger in item "
          ++ item.title, ?_, ("Missing expected 'and Registered File' "
          ++ "Trigger in item ").data, [], ?_⟩
        · rw [if_neg (by simp [htc]), if_pos h]
        · simp [String.data_append]
    · refine ⟨"Unexpected Trigger Condition in item " ++ item.title ++ ": "
        ++ pyStrListRepr item.triggerCondition, ?_,
        ("Unexpected Trigger Condition in item ").data,
        (": " ++ pyStrListRepr item.triggerCondition).data, ?_⟩
      · rw [if_pos (by simp [htc])]
      · simp [String.data_append]

/-- Exhaustive shape of `buildPkginfo`: either some step after the line-169
`url` assignment fails — leaving `url` set, `version` and
`additional_pkginfo` unset — or every step succeeds and the full record is
emitted. -/
theorem buildPkginfo_cases (product : String) (metadata : List FeedItem)
    (item : FeedItem) :
    (∃ e, buildPkginfo product metadata item =
      { fetched := true
        url := some item.location
        version := none
        additional_pkginfo := none
        error := some e }) ∨
    (∃ first sd maxS minS inst vers,
      metadata.head? = some first ∧
      getShortDescription first = .ok sd ∧
      valueToOSVersionString item.maxOS = .ok maxS ∧
      valueToOSVersionString item.minOS = .ok minS ∧
      getInstallsItems item product = .ok inst ∧
      getVersion item.title = .ok vers ∧
      buildPkginfo product metadata item =
        { fetched := true
          url := some item.location
          version := some vers
          additional_pkginfo := some
            { description := "<html>" ++ sd ++ "</html>"
              display_name := item.title
              maximum_os_version := if maxS ≠ "0.0.0" then some maxS else none
              minimum_os_version := if minS ≠ "0.0.0" then some minS else none
              installs := if inst.isEmpty then none else some inst }
          error := none }) := by
  rcases hh : metadata.head? with _ | first
  · exact Or.inl ⟨.indexError, by simp [buildPkginfo, hh]⟩
  rcases hsd : getShortDescription first with e | sd
  · exact Or.inl ⟨e, by simp [buildPkginfo, hh, hsd]⟩
  rcases hmax : valueToOSVersionString item.maxOS with e | maxS
  · exact Or.inl ⟨e, by simp [buildPkginfo, hh, hsd, hmax]⟩
  rcases hmin : valueToOSVersionString item.minOS with e | minS
  · exact Or.inl ⟨e, by simp [buildPkginfo, hh, hsd, hmax, hmin]⟩
  rcases hinst : getInstallsItems item product with e | inst
  · exact Or.inl ⟨e, by simp [buildPkginfo, hh, hsd, hmax, hmin, hinst]⟩
  rcases hver : getVersion item.title with e | vers
  · exact Or.inl ⟨e, by simp [buildPkginfo, hh, hsd, hmax, hmin, hinst, hver]⟩
  refine Or.inr ⟨first, sd, maxS, minS, inst, vers, ?_, ?_, ?_, ?_, ?_, ?_, ?_⟩
  all_goals first
    | rfl
    | assumption
    | simp [buildPkginfo, hh, hsd, hmax, hmin, hinst, hver]

/-- Exhaustive shape of a whole run: either it fails with `version` and
`additional_pkginfo` unset, or it succeeds with all three outputs set. -/
theorem getInstallerinfo_shape (product sel : String)
    (fetch : Except String (List FeedItem)) :
    ((getInstallerinfo product sel fetch).error.isSome = true ∧
     (getInstallerinfo product sel fetch).version = none ∧
     (getInstallerinfo product sel fetch).additional_pkginfo = none) ∨
    ((getInstallerinfo product sel fetch).error = none ∧
     (getInstallerinfo product sel fetch).url.isSome = true ∧
     (getInstallerinfo product sel fetch).version.isSome = true ∧
     (getInstallerinfo product sel fetch).additional_pkginfo.isSome = true) := by
  rcases hp : alookup product PROD_DICT with _ | prodCode
  · exact Or.inl ⟨by simp [getInstallerinfo, hp], by simp [getInstallerinfo, hp],
      by simp [getInstallerinfo, hp]⟩
  rcases fetch with err | metadata
  · exact Or.inl ⟨by simp [getInstallerinfo, hp], by simp [getInstallerinfo, hp],
      by simp [getInstallerinfo, hp]⟩
  by_cases hsel : sel = "latest"
  · rcases hl : (sortByDate metadata).getLast? with _ | item
    · exact Or.inl ⟨by simp [getInstallerinfo, hp, hsel, hl],
        by simp [getInstallerinfo, hp, hsel, hl],
        by simp [getInstallerinfo, hp, hsel, hl]⟩
    rcases buildPkginfo_cases product metadata item with ⟨e, hb⟩ |
      ⟨first, sd, maxS, minS, inst, vers, _, _, _, _, _, _, hb⟩
    · exact Or.inl ⟨by simp [getInstallerinfo, hp, hsel, hl, hb],
        by simp [getInstallerinfo, hp, hsel, hl, hb],
        by simp [getInstallerinfo, hp, hsel, hl, hb]⟩
    · exact Or.inr ⟨by simp [getInstallerinfo, hp, hsel, hl, hb],
        by simp [getInstallerinfo, hp, hsel, hl, hb],
        by simp [getInstallerinfo, hp, hsel, hl, hb],
        by simp [getInstallerinfo, hp, hsel, hl, hb]⟩
  · exact Or.inl ⟨by simp [getInstallerinfo, hp, hsel],
      by simp [getInstallerinfo, hp, hsel],
      by simp [getInstallerinfo, hp, hsel]⟩

/-- Inversion of a successful run: `additional_pkginfo` is only ever set by
the final line-189 assignment, so a set pkginfo pins down every step. -/
theorem getInstallerinfo_success_inv (product sel : String)
    (fetch : Except String (List FeedItem)) (pk : PkgInfo)
    (h : (getInstallerinfo product sel fetch).additional_pkginfo = some pk) :
    ∃ metadata item first sd maxS minS inst vers,
      fetch = .ok metadata ∧ sel = "latest" ∧
      (sortByDate metadata).getLast? = some item ∧
      metadata.head? = some first ∧
      getShortDescription first = .ok sd ∧
      valueToOSVersionString item.maxOS = .ok maxS ∧
      valueToOSVersionString item.minOS = .ok minS ∧
      getInstallsItems item product = .ok inst ∧
      getVersion item.title = .ok vers ∧
      pk = { description := "<html>" ++ sd ++ "</html>"
             display_name := item.title
             maximum_os_version := if maxS ≠ "0.0.0" then some maxS else none
             minimum_os_version := if minS ≠ "0.0.0" then some minS else none
             installs := if inst.isEmpty then none else some inst } := by
  rcases hp : alookup product PROD_DICT with _ | prodCode
  · rw [show getInstallerinfo product sel fetch =
      { fetched := false, url := none, version := none, additional_pkginfo := none,
        error := some (.typeError "cannot concatenate 'str' and 'NoneType' objects") }
      from by simp [getInstallerinfo, hp]] at h
    exact absurd h (by simp)
  rcases fetch with err | metadata
  · rw [show getInstallerinfo product sel (.error err) =
      { fetched := true, url := none, version := none, additional_pkginfo := none,
        error := some (.processorError ("Can't download " ++ baseUrl prodCode
          ++ ": " ++ err)) } from by simp [getInstallerinfo, hp]] at h
    exact absurd h (by simp)
  by_cases hsel : sel = "latest"
  · rcases hl : (sortByDate metadata).getLast? with _ | item
    · rw [show getInstallerinfo product sel (.ok metadata) =
        { fetched := true, url := none, version := none, additional_pkginfo := none,
          error := some .indexError } from by simp [getInstallerinfo, hp, hsel, hl]]
        at h
      exact absurd h (by simp)
    have hb : getInstallerinfo product sel (.ok metadata) =
        buildPkginfo product metadata item := by
      simp [getInstallerinfo, hp, hsel, hl]
    rw [hb] at h
    rcases buildPkginfo_cases product metadata item with ⟨e, hfail⟩ |
      ⟨first, sd, maxS, minS, inst, vers, hh, hsd, hmax, hmin, hinst, hver, hok⟩
    · rw [hfail] at h
      exact absurd h (by simp)
    · rw [hok] at h
      simp only [Option.some.injEq] at h
      exact ⟨metadata, item, first, sd, maxS, minS, inst, vers, rfl, hsel, hl,
        hh, hsd, hmax, hmin, hinst, hver, h.symm⟩
  · rw [show getInstallerinfo product sel (.ok metadata) =
      { fetched := true, url := none, version := none, additional_pkginfo := none,
        error := some (.nameError "item") } from by simp [getInstallerinfo, hp, hsel]]
      at h
    exact absurd h (by simp)

/-- C2 counterexample: a feed whose single (selected) entry has an
unexpected trigger shape makes the resolution fail, yet the `url` output
has already been assigned — the failure does not leave all output fields
unset. -/
theorem getInstallerinfo_partial_url :
    (getInstallerinfo "Excel" "latest" (.ok [exItemBadTrigger])).error =
      some (.processorError
        "Unexpected Trigger Condition in item Microsoft Excel Update 15.9: ['bogus']") ∧
    (getInstallerinfo "Excel" "latest" (.ok [exItemBadTrigger])).url =
      some "http://u1" := by decide

/-- C2 (amended): `version` and `additional_pkginfo` are all-or-nothing —
set exactly when the whole resolution succeeds — but `url` is assigned as
soon as an entry is selected (line 169), so a failure in a later step
leaves `url` set while the other outputs stay unset. -/
theorem getInstallerinfo_outputs :
    (∀ (product sel : String) (fetch : Except String (List FeedItem)),
      (getInstallerinfo product sel fetch).error = none →
      (getInstallerinfo product sel fetch).url.isSome = true ∧
      (getInstallerinfo product sel fetch).version.isSome = true ∧
      (getInstallerinfo product sel fetch).additional_pkginfo.isSome = true) ∧
    (∀ (product sel : String) (fetch : Except String (List FeedItem)),
      (getInstallerinfo product sel fetch).version.isSome = true ∨
      (getInstallerinfo product sel fetch).additional_pkginfo.isSome = true →
      (getInstallerinfo product sel fetch).error = none) := by
  constructor
  · intro product sel fetch he
    rcases getInstallerinfo_shape product sel fetch with ⟨h1, _, _⟩ | ⟨_, h2, h3, h4⟩
    · rw [he] at h1; exact absurd h1 (by simp)
    · exact ⟨h2, h3, h4⟩
  · intro product sel fetch hset
    rcases getInstallerinfo_shape product sel fetch with ⟨_, h2, h3⟩ | ⟨h1, _, _, _⟩
    · rcases hset with hv | hpk
      · rw [h2] at hv; exact absurd hv (by simp)
      · rw [h3] at hpk; exact absurd hpk (by simp)
    · exact h1

/-- C3 counterexample: with two entries of distinct dates the resolution
selects the later-dated entry (`exItem2`, short description `B`) but takes
the description from `metadata[0]` (`exItem1`, short description `A`): the
emitted description is not the selected entry's localization. -/
theorem description_not_from_selected :
    (sortByDate [exItem1, exItem2]).getLast? = some exItem2 ∧
    getShortDescription exItem2 = .ok "B" ∧
    (getInstallerinfo "Excel" "latest"
        (.ok [exItem1, exItem2])).additional_pkginfo =
      some { description := "<html>A</html>"
             display_name := "Microsoft Excel Update 15.10"
             maximum_os_version := none
             minimum_os_version := some "10.5.8"
             installs := some [{ CFBundleShortVersionString := "15.10"
                                 CFBundleVersion := "15.10"
                                 path := "/Applications/Microsoft Excel.app"
                                 type' := "application" }] } ∧
    ("<html>A</html>" : String) ≠ "<html>B</html>" := by decide

/-- C3 (amended): the emitted description is the html-wrapped
`Short Description` of the `1033` localization of the feed's FIRST entry
(in original order), not of the selected entry; and when that locale or
field is absent the run fails with the raw `KeyError`/`TypeError` of the
unchecked dictionary access, not with a `ProcessorError`. -/
theorem description_from_first_entry :
    (∀ (product sel : String) (fetch : Except String (List FeedItem))
        (pk : PkgInfo),
      (getInstallerinfo product sel fetch).additional_pkginfo = some pk →
      ∃ metadata first sd, fetch = .ok metadata ∧ metadata.head? = some first ∧
        getShortDescription first = .ok sd ∧
        pk.description = "<html>" ++ sd ++ "</html>") ∧
    (∀ (first : FeedItem) (e : PyErr), getShortDescription first = .error e →
      (∃ k, e = .keyError k) ∨ (∃ m, e = .typeError m)) ∧
    (∀ (product prodCode : String) (metadata : List FeedItem)
        (item first : FeedItem) (e : PyErr),
      alookup product PROD_DICT = some prodCode →
      (sortByDate metadata).getLast? = some item →
      metadata.head? = some first →
      getShortDescription first = .error e →
      (getInstallerinfo product "latest" (.ok metadata)).error = some e) := by
  refine ⟨?_, ?_, ?_⟩
  · intro product sel fetch pk h
    obtain ⟨metadata, item, first, sd, maxS, minS, inst, vers, hf, _, _, hh, hsd,
      _, _, _, _, hpk⟩ := getInstallerinfo_success_inv product sel fetch pk h
    exact ⟨metadata, first, sd, hf, hh, hsd, by rw [hpk]⟩
  · intro first e h
    rcases hl : first.localized with _ | locs
    · simp only [getShortDescription, hl, Except.error.injEq] at h
      exact Or.inr ⟨_, h.symm⟩
    rcases h10 : alookup "1033" locs with _ | fields
    · simp only [getShortDescription, hl, h10, Except.error.injEq] at h
      exact Or.inl ⟨_, h.symm⟩
    rcases hfd : alookup "Short Description" fields with _ | sd
    · simp only [getShortDescription, hl, h10, hfd, Except.error.injEq] at h
      exact Or.inl ⟨_, h.symm⟩
    · simp [getShortDescription, hl, h10, hfd] at h
  · intro product prodCode metadata item first e hp hl hh hsd
    have hb : getInstallerinfo product "latest" (.ok metadata) =
        buildPkginfo product metadata item := by
      simp [getInstallerinfo, hp, hl]
    rw [hb]
    simp [buildPkginfo, hh, hsd]

/-- C9: a resolved pkginfo carries `maximum_os_version` /
`minimum_os_version` exactly when the decoded `Max OS` / `Min OS` of the
selected entry is not the sentinel `0.0.0`, in which case the field equals
that decoded string (the sentinel itself is never emitted); on the two-entry
reference feed (`Max OS` 0, `Min OS` 4184) the maximum is omitted and the
minimum is `10.5.8`. -/
theorem os_version_fields_sentinel :
    (∀ (product sel : String) (fetch : Except String (List FeedItem))
        (pk : PkgInfo),
      (getInstallerinfo product sel fetch).additional_pkginfo = some pk →
      ∃ metadata item maxS minS, fetch = .ok metadata ∧
        (sortByDate metadata).getLast? = some item ∧
        valueToOSVersionString item.maxOS = .ok maxS ∧
        valueToOSVersionString item.minOS = .ok minS ∧
        pk.maximum_os_version = (if maxS ≠ "0.0.0" then some maxS else none) ∧
        pk.minimum_os_version = (if minS ≠ "0.0.0" then some minS else none)) ∧
    (∃ pk, (getInstallerinfo "Excel" "latest"
        (.ok [exItem1, exItem2])).additional_pkginfo = some pk ∧
      pk.maximum_os_version = none ∧ pk.minimum_os_version = some "10.5.8") := by
  constructor
  · intro product sel fetch pk h
    obtain ⟨metadata, item, first, sd, maxS, minS, inst, vers, hf, _, hl, _, _,
      hmax, hmin, _, _, hpk⟩ := getInstallerinfo_success_inv product sel fetch pk h
    exact ⟨metadata, item, maxS, minS, hf, hl, hmax, hmin, by rw [hpk],
      by rw [hpk]⟩
  · refine ⟨{ description := "<html>A</html>"
              display_name := "Microsoft Excel Update 15.10"
              maximum_os_version := none
              minimum_os_version := some "10.5.8"
              installs := some [{ CFBundleShortVersionString := "15.10"
                                  CFBundleVersion := "15.10"
                                  path := "/Applications/Microsoft Excel.app"
                                  type' := "application" }] }, by decide, rfl, rfl⟩

/-- C4 counterexample: resolving the unknown product `Safari` fails before
the network interface is touched, but with an uncaught `TypeError` from
concatenating `None` into the feed URL (line 145) — not with a
`ProcessorError` (the code never raises an `UnknownProductError`). -/
theorem unknown_product_not_processorError :
    getInstallerinfo "Safari" "latest" (.ok []) =
      { fetched := false
        url := none
        version := none
        additional_pkginfo := none
        error := some (.typeError "cannot concatenate 'str' and 'NoneType' objects") } ∧
    (∀ m : String, (getInstallerinfo "Safari" "latest" (.ok [])).error ≠
      some (.processorError m)) := by
  refine ⟨by decide, fun m h => ?_⟩
  rw [show (getInstallerinfo "Safari" "latest" (.ok [])).error =
    some (.typeError "cannot concatenate 'str' and 'NoneType' objects")
    from by decide] at h
  exact absurd (Option.some.inj h) (by simp)

/-- C4 (amended): for every product name outside `PROD_DICT` the resolution
fails before the network retrieval is invoked and without setting any
output — but the failure is the line-145 `TypeError` (string concatenation
with `None`), not an `UnknownProductError`. -/
theorem unknown_product_before_fetch (product sel : String)
    (fetch : Except String (List FeedItem))
    (h : alookup product PROD_DICT = none) :
    getInstallerinfo product sel fetch =
      { fetched := false
        url := none
        version := none
        additional_pkginfo := none
        error := some (.typeError "cannot concatenate 'str' and 'NoneType' objects") } := by
  simp [getInstallerinfo, h]

theorem unknown_product_before_fetch_witness :
    getInstallerinfo "Chrome" "latest" (.ok [exItem1]) =
      { fetched := false
        url := none
        version := none
        additional_pkginfo := none
        error := some (.typeError "cannot concatenate 'str' and 'NoneType' objects") } :=
  unknown_product_before_fetch "Chrome" "latest" (.ok [exItem1]) rfl

/-- C5 counterexample: a version selector other than `"latest"` makes the
run fail with the uncaught `NameError` for the never-assigned local `item`
(line 169) — not with a `ProcessorError` (the code never raises an
`UnsupportedSelectorError`). -/
theorem non_latest_not_processorError :
    getInstallerinfo "Excel" "2.0" (.ok [exItem1]) =
      { fetched := true
        url := none
        version := none
        additional_pkginfo := none
        error := some (.nameError "item") } ∧
    (∀ m : String, (getInstallerinfo "Excel" "2.0" (.ok [exItem1])).error ≠
      some (.processorError m)) := by
  refine ⟨by decide, fun m h => ?_⟩
  rw [show (getInstallerinfo "Excel" "2.0" (.ok [exItem1])).error =
    some (.nameError "item") from by decide] at h
  exact absurd (Option.some.inj h) (by simp)

/-- C5 (amended): for every supported product and every selector other than
`"latest"`, the resolution fails (after the fetch) with the uncaught
`NameError` on the unbound local `item`, leaving every output unset — not
with an `UnsupportedSelectorError`. -/
theorem non_latest_nameError (product prodCode sel : String)
    (metadata : List FeedItem)
    (hp : alookup product PROD_DICT = some prodCode) (hs : sel ≠ "latest") :
    getInstallerinfo product sel (.ok metadata) =
      { fetched := true
        url := none
        version := none
        additional_pkginfo := none
        error := some (.nameError "item") } := by
  simp [getInstallerinfo, hp, hs]

theorem non_latest_nameError_witness :
    getInstallerinfo "Word" "15.10" (.ok [exItem1, exItem2]) =
      { fetched := true
        url := none
        version := none
        additional_pkginfo := none
        error := some (.nameError "item") } :=
  non_latest_nameError "Word" "MSWD" "15.10" [exItem1, exItem2] rfl (by decide)
